import Mathlib

/-!
Verification of `lightning_pod/core/module.py` and `examples/hydra/trainer.py`
(the studio-lab autoencoder example).

Tensors are modelled as a shape (list of dimension sizes) together with a flat
row-major data buffer, as in the underlying numeric library.  Values are taken
in an arbitrary linear ordered field `α` (rationals for concrete evaluation,
reals for the analytic claims about `log_softmax`); the library's `exp` and
`log` functions are passed explicitly so that every definition stays
executable.  Randomness (the dropout Bernoulli draws) is modelled as an
explicit stream of booleans indexed by element position.  A raised exception of
the numeric layer (shape mismatch, invalid keyword argument) is modelled as
`none`.
-/

namespace LightningPod

/-- A tensor of the numeric library: a shape plus a flat data buffer in
row-major order. -/
structure Tensor (α : Type) where
  shape : List Nat
  data : List α

/-- A tensor is well formed when its buffer has exactly as many entries as the
product of its dimension sizes. -/
def Tensor.wf {α : Type} (t : Tensor α) : Prop :=
  t.data.length = t.shape.prod

/-- Split a flat buffer into `n` consecutive rows of width `d`
(row-major reading of a 2-d tensor). -/
def toRows {α : Type} (n d : Nat) (xs : List α) : List (List α) :=
  match n with
  | 0 => []
  | Nat.succ m => xs.take d :: toRows m d (xs.drop d)

/-- `x.view(x.size(0), -1)` (module.py lines 148 and 169): reshape to two
dimensions, keeping the leading (batch) dimension and flattening the rest,
with the numeric library's error paths: `x.size(0)` is an error on a
0-dimensional tensor, and when the leading dimension is 0 the tensor has 0
elements, so the library cannot infer the `-1` dimension (any size would fit)
and raises; otherwise `-1` resolves to the product of the remaining
dimensions. -/
def Tensor.view2 {α : Type} (t : Tensor α) : Option (Tensor α) :=
  match t.shape with
  | [] => none
  | n :: ds => if n = 0 then none else some ⟨[n, ds.prod], t.data⟩

variable {α : Type} [LinearOrderedField α]

/-- Dot product of two vectors. -/
def dot (u v : List α) : α :=
  (List.zipWith (fun a b => a * b) u v).sum

/-- Apply a weight matrix and bias vector to one input vector:
`W x + b`, one output entry per weight row. -/
def matVec (w : List (List α)) (b : List α) (x : List α) : List α :=
  List.zipWith (fun row bi => dot row x + bi) w b

/-- `torch.nn.Linear(in_features, out_features, bias=True)`: an affine layer
with its declared feature sizes and learned parameters. -/
structure Linear (α : Type) where
  inF : Nat
  outF : Nat
  weight : List (List α)
  bias : List α

/-- The parameters of a `Linear` layer agree with its declared sizes. -/
def Linear.wf (l : Linear α) : Prop :=
  l.weight.length = l.outF ∧ (∀ r ∈ l.weight, r.length = l.inF) ∧
    l.bias.length = l.outF

/-- Apply a `Linear` layer to a 2-d batch. The numeric library raises a shape
error (`none`) when the feature dimension of the input differs from
`in_features`; otherwise each row is mapped through the affine map. -/
def Linear.fwd (l : Linear α) (t : Tensor α) : Option (Tensor α) :=
  match t.shape with
  | [n, d] =>
      if d = l.inF then
        some ⟨[n, l.outF], ((toRows n d t.data).map (matVec l.weight l.bias)).flatten⟩
      else none
  | _ => none

/-- `torch.nn.PReLU()` applied to one scalar with learned slope `a`:
`x` if `0 ≤ x`, else `a * x`. -/
def preluFn (a x : α) : α :=
  if 0 ≤ x then x else a * x

/-- PReLU applied elementwise to a tensor; the shape is unchanged. -/
def prelu2 (a : α) (t : Tensor α) : Tensor α :=
  ⟨t.shape, t.data.map (preluFn a)⟩

/-- `torch.nn.Dropout(p)` on a flat buffer: in training mode with `p ≠ 0` each
element is zeroed according to its Bernoulli draw (the `mask` stream, `true`
meaning dropped) and survivors are rescaled by `1 / (1 - p)`; in evaluation
mode, or when `p = 0`, it is the identity. -/
def dropoutData (training : Bool) (p : α) (mask : Nat → Bool) (xs : List α) : List α :=
  if training = true ∧ p ≠ 0 then
    ((List.range xs.length).zip xs).map (fun iv => if mask iv.1 then 0 else iv.2 / (1 - p))
  else xs

/-- Dropout applied to a tensor; the shape is unchanged. -/
def dropout2 (training : Bool) (p : α) (mask : Nat → Bool) (t : Tensor α) : Tensor α :=
  ⟨t.shape, dropoutData training p mask t.data⟩

/-- `Encoder` (module.py lines 47-67):
`Sequential(Linear(784, 64), PReLU(), Dropout(dropout), Linear(64, 3))`. -/
structure Encoder (α : Type) where
  lin1 : Linear α
  preluA : α
  p : α
  lin2 : Linear α

/-- The layer sizes fixed by `Encoder.__init__`: 28*28 → 64 → 3, with well
formed parameter lists. -/
def Encoder.init (e : Encoder α) : Prop :=
  e.lin1.inF = 28 * 28 ∧ e.lin1.outF = 64 ∧ e.lin1.wf ∧
    e.lin2.inF = 64 ∧ e.lin2.outF = 3 ∧ e.lin2.wf

/-- `Encoder.forward`: run the sequential stack on a 2-d batch. -/
def Encoder.fwd (e : Encoder α) (training : Bool) (mask : Nat → Bool)
    (t : Tensor α) : Option (Tensor α) :=
  (e.lin1.fwd t).bind (fun a =>
    e.lin2.fwd (dropout2 training e.p mask (prelu2 e.preluA a)))

/-- `Decoder` (module.py lines 92-113):
`Sequential(Linear(3, 64), PReLU(), Dropout(dropout), Linear(64, 784))`. -/
structure Decoder (α : Type) where
  lin1 : Linear α
  preluA : α
  p : α
  lin2 : Linear α

/-- The layer sizes fixed by `Decoder.__init__`: 3 → 64 → 28*28, with well
formed parameter lists. -/
def Decoder.init (d : Decoder α) : Prop :=
  d.lin1.inF = 3 ∧ d.lin1.outF = 64 ∧ d.lin1.wf ∧
    d.lin2.inF = 64 ∧ d.lin2.outF = 28 * 28 ∧ d.lin2.wf

/-- `Decoder.forward`: run the sequential stack on a 2-d batch. -/
def Decoder.fwd (d : Decoder α) (training : Bool) (mask : Nat → Bool)
    (t : Tensor α) : Option (Tensor α) :=
  (d.lin1.fwd t).bind (fun a =>
    d.lin2.fwd (dropout2 training d.p mask (prelu2 d.preluA a)))

/-- `F.log_softmax` along dim 1, on one row: each entry becomes
`x i - log (Σ j, exp (x j))`, with the library's `exp` and `log` passed
explicitly. -/
def logSoftmaxRow (ex lg : α → α) (xs : List α) : List α :=
  xs.map (fun v => v - lg ((xs.map ex).sum))

/-- `F.log_softmax(x, dim=1)` on a 2-d tensor: apply `logSoftmaxRow` to each
row; on a tensor that is not 2-d the call is a dimension error (`none`), which
never occurs on the paths exercised by the module. -/
def logSoftmax2 (ex lg : α → α) (t : Tensor α) : Option (Tensor α) :=
  match t.shape with
  | [n, d] => some ⟨[n, d], ((toRows n d t.data).map (logSoftmaxRow ex lg)).flatten⟩
  | _ => none

/-- `F.mse_loss(a, b)` with the default mean reduction: the mean of the
squared entrywise differences; a shape mismatch is an error of the numeric
layer. -/
def mseLoss (a b : Tensor α) : Option α :=
  if a.shape = b.shape then
    some (((List.zip a.data b.data).map (fun pq => (pq.1 - pq.2) ^ 2)).sum
      / (a.data.length : α))
  else none

/-- `PodModule` (module.py lines 116-145): composes an `Encoder` and a
`Decoder`; the optimizer name, learning rate and accuracy task kind are the
hyperparameters captured at construction. -/
structure PodModule (α : Type) where
  encoder : Encoder α
  decoder : Decoder α
  optimizerName : String
  lr : α
  accuracyTask : String

/-- `PodModule.forward` (module.py lines 147-152): flatten the batch to 2-d,
encode, decode, and take the log-softmax of the reconstruction along dim 1;
returns the pair `(x_hat, y_hat)`. -/
def PodModule.fwd (ex lg : α → α) (m : PodModule α) (training : Bool)
    (mask1 mask2 : Nat → Bool) (x : Tensor α) : Option (Tensor α × Tensor α) :=
  (x.view2).bind (fun xv =>
    (m.encoder.fwd training mask1 xv).bind (fun z =>
      (m.decoder.fwd training mask2 z).bind (fun xh =>
        (logSoftmax2 ex lg xh).map (fun yh => (xh, yh)))))

/-- The forward computation inside `PodModule._common_flow` (module.py lines
169-172): the same flatten → encode → decode → log-softmax pipeline, yielding
`(x_hat, y_hat)`. -/
def commonFlowXYhat (ex lg : α → α) (m : PodModule α) (training : Bool)
    (mask1 mask2 : Nat → Bool) (x : Tensor α) : Option (Tensor α × Tensor α) :=
  (x.view2).bind (fun xv =>
    (m.encoder.fwd training mask1 xv).bind (fun z =>
      (m.decoder.fwd training mask2 z).bind (fun xh =>
        (logSoftmax2 ex lg xh).map (fun yh => (xh, yh)))))

/-- The keyword parameters accepted by the metrics library's functional
`accuracy` (its task-kind parameter is named `task`; cf. the spec's design
note that the source passes the task kind by an unconventional keyword). -/
def accuracyKeywords : List String :=
  ["task", "threshold", "num_classes", "average", "multidim_average",
   "top_k", "ignore_index", "validate_args"]

/-- Calling the metrics library's `accuracy(preds, target, kw=taskKind)`:
the call raises a `TypeError` (`none`) when `kw` is not an accepted parameter
name; otherwise the (externally computed) accuracy `accFn preds target` is
returned. -/
def callAccuracy (accFn : Tensor α → List Nat → α) (kw : String)
    (preds : Tensor α) (target : List Nat) : Option α :=
  if kw ∈ accuracyKeywords then some (accFn preds target) else none

/-- The metric-recording step of the validation/test branch (module.py lines
178-180): the three `(name, value)` records, in logging order. -/
def valTestLogs (stage : String) (ssim acc loss : α) : List (String × α) :=
  [(stage ++ "_ssim ", ssim), (stage ++ "_acc", acc), (stage ++ "_loss", loss)]

/-- `PodModule._common_flow` (module.py lines 163-183): unpack the batch, run
the shared forward path, compute the MSE loss between reconstruction and
flattened input, then record the per-stage metrics.  The result is the list of
`(name, value)` records together with the Python return value (`some loss` for
the training stage, `none` — Python `None` — otherwise); an exception raised
along the way is `none`.  The structural-similarity computation is the
external `ssimFn`.  The two `if` guards of the source are mutually exclusive,
so they are rendered as an if/else-if chain. -/
def commonFlow (ex lg : α → α) (accFn : Tensor α → List Nat → α)
    (ssimFn : Tensor α → Tensor α → α) (m : PodModule α) (training : Bool)
    (mask1 mask2 : Nat → Bool) (batch : Tensor α × List Nat) (stage : String) :
    Option (List (String × α) × Option α) :=
  (commonFlowXYhat ex lg m training mask1 mask2 batch.1).bind (fun xy =>
    (batch.1.view2).bind (fun xv =>
      (mseLoss xy.1 xv).bind (fun loss =>
        if stage ∈ ["val", "test"] then
          (callAccuracy accFn "accuracy_task" xy.2 batch.2).map (fun acc =>
            (valTestLogs stage (ssimFn xy.1 xv) acc loss, none))
        else if stage = "training" then
          some ([(stage ++ "_loss", loss)], some loss)
        else
          some ([], none))))

/-- `PodModule.training_step` (module.py lines 154-155): runs `_common_flow`
with stage `"training"`; the method body has no `return`, so the step's own
return value is Python `None`. -/
def trainingStep (ex lg : α → α) (accFn : Tensor α → List Nat → α)
    (ssimFn : Tensor α → Tensor α → α) (m : PodModule α) (training : Bool)
    (mask1 mask2 : Nat → Bool) (batch : Tensor α × List Nat) :
    Option (List (String × α) × Option α) :=
  (commonFlow ex lg accFn ssimFn m training mask1 mask2 batch "training").map
    (fun r => (r.1, none))

/-- `PodModule.validation_step` (module.py lines 160-161): runs `_common_flow`
with stage `"val"` and returns `None`. -/
def validationStep (ex lg : α → α) (accFn : Tensor α → List Nat → α)
    (ssimFn : Tensor α → Tensor α → α) (m : PodModule α) (training : Bool)
    (mask1 mask2 : Nat → Bool) (batch : Tensor α × List Nat) :
    Option (List (String × α) × Option α) :=
  (commonFlow ex lg accFn ssimFn m training mask1 mask2 batch "val").map
    (fun r => (r.1, none))

/-- `PodModule.test_step` (module.py lines 157-158): runs `_common_flow` with
stage `"test"` and returns `None`. -/
def testStep (ex lg : α → α) (accFn : Tensor α → List Nat → α)
    (ssimFn : Tensor α → Tensor α → α) (m : PodModule α) (training : Bool)
    (mask1 mask2 : Nat → Bool) (batch : Tensor α × List Nat) :
    Option (List (String × α) × Option α) :=
  (commonFlow ex lg accFn ssimFn m training mask1 mask2 batch "test").map
    (fun r => (r.1, none))

/-- The early-stopping configuration of the driver
(examples/hydra/trainer.py line 49): `EarlyStopping(monitor="loss", mode="min")`. -/
def earlyStoppingMonitor : String := "loss"

/-- The mode of the driver's early-stopping collaborator. -/
def earlyStoppingMode : String := "min"

/-- The class names defined by `lightning_pod/core/module.py`. -/
def coreModuleClassNames : List String := ["Encoder", "Decoder", "PodModule"]

/-- The name the driver imports from `lightning_pod.core.module` and calls to
construct the model (examples/hydra/trainer.py lines 29 and 59). -/
def driverModelClassName : String := "LitModel"

/-- A `Linear` layer with all parameters zero, for concrete evaluation. -/
def zeroLin (a b : Nat) : Linear ℚ :=
  ⟨a, b, List.replicate b (List.replicate a 0), List.replicate b 0⟩

/-- A concrete rational `Encoder` with the sizes of `Encoder.__init__`. -/
def encQ : Encoder ℚ := ⟨zeroLin (28 * 28) 64, 0, 0, zeroLin 64 3⟩

/-- A concrete rational `Decoder` with the sizes of `Decoder.__init__`. -/
def decQ : Decoder ℚ := ⟨zeroLin 3 64, 0, 0, zeroLin 64 (28 * 28)⟩

/-- A concrete rational `PodModule`. -/
def podQ : PodModule ℚ := ⟨encQ, decQ, "Adam", 1 / 1000, "multilabel"⟩

/-- A tiny rational `Encoder` (2 → 1 → 1) for cheap end-to-end evaluation of
`_common_flow`; `_common_flow` itself never inspects the declared sizes. -/
def tinyEnc : Encoder ℚ := ⟨⟨2, 1, [[0, 0]], [0]⟩, 0, 0, ⟨1, 1, [[0]], [0]⟩⟩

/-- A tiny rational `Decoder` (1 → 1 → 2). -/
def tinyDec : Decoder ℚ := ⟨⟨1, 1, [[0]], [0]⟩, 0, 0, ⟨1, 2, [[0], [0]], [0, 0]⟩⟩

/-- A tiny rational `PodModule`. -/
def tinyPod : PodModule ℚ := ⟨tinyEnc, tinyDec, "Adam", 1 / 1000, "multilabel"⟩

/-- A tiny concrete batch: one sample of two features, label 0. -/
def tinyBatch : Tensor ℚ × List Nat := (⟨[1, 2], [0, 0]⟩, [0])

/-- A concrete rational batch of shape (1, 784). -/
def tQ : Tensor ℚ := ⟨[1, 28 * 28], List.replicate (28 * 28) 0⟩

/-- A concrete rational latent batch of shape (1, 3). -/
def uQ : Tensor ℚ := ⟨[1, 3], List.replicate 3 0⟩

/-- A concrete rational batch of shape (2, 28, 28). -/
def t10 : Tensor ℚ := ⟨[2, 28, 28], List.replicate (2 * (28 * 28)) 0⟩

/-- A concrete real `Encoder` with dropout probability 0. -/
def encR : Encoder ℝ :=
  ⟨⟨28 * 28, 64, List.replicate 64 (List.replicate (28 * 28) 0), List.replicate 64 0⟩,
    0, 0, ⟨64, 3, List.replicate 3 (List.replicate 64 0), List.replicate 3 0⟩⟩

/-- A concrete real `Decoder` with dropout probability 0. -/
def decR : Decoder ℝ :=
  ⟨⟨3, 64, List.replicate 64 (List.replicate 3 0), List.replicate 64 0⟩,
    0, 0, ⟨64, 28 * 28, List.replicate (28 * 28) (List.replicate 64 0),
      List.replicate (28 * 28) 0⟩⟩

/-- A concrete real `PodModule`. -/
def podR : PodModule ℝ := ⟨encR, decR, "Adam", 0, "multilabel"⟩

/-- A concrete real batch of shape (4, 1, 28, 28), the spec's end-to-end
scenario input. -/
def tR : Tensor ℝ := ⟨[4, 1, 28, 28], List.replicate (4 * (28 * 28)) 0⟩

/-- The empty rational batch of shape (0, 28, 28): 0 samples, each flattening
to 784 entries. -/
def tEmpty : Tensor ℚ := ⟨[0, 28, 28], []⟩

/-! ## Basic lemmas about the tensor operations -/

theorem view2_some {β : Type} (N : Nat) (ds : List Nat) (t : Tensor β)
    (ht : t.shape = N :: ds) (hN : N ≠ 0) :
    t.view2 = some ⟨[N, ds.prod], t.data⟩ := by
  rw [Tensor.view2, ht]
  simp [hN]

theorem view2_zero {β : Type} (ds : List Nat) (t : Tensor β)
    (ht : t.shape = 0 :: ds) : t.view2 = none := by
  rw [Tensor.view2, ht]
  simp

theorem toRows_length {β : Type} (n d : Nat) (xs : List β) :
    (toRows n d xs).length = n := by
  induction n generalizing xs with
  | zero => rfl
  | succ m ih => simp only [toRows, List.length_cons, ih]

theorem toRows_row_length {β : Type} (n d : Nat) (xs : List β)
    (h : xs.length = n * d) : ∀ r ∈ toRows n d xs, r.length = d := by
  induction n generalizing xs with
  | zero => intro r hr; cases hr
  | succ m ih =>
    intro r hr
    rw [toRows] at hr
    rcases List.mem_cons.mp hr with rfl | hr
    · rw [List.length_take, h, Nat.succ_mul]
      omega
    · exact ih (xs.drop d) (by rw [List.length_drop, h, Nat.succ_mul]; omega) r hr

theorem toRows_flatten {β : Type} (d : Nat) (rs : List (List β))
    (h : ∀ r ∈ rs, r.length = d) : toRows rs.length d rs.flatten = rs := by
  induction rs with
  | nil => rfl
  | cons a as ih =>
    have ha : a.length = d := h a (List.mem_cons_self a as)
    simp only [List.length_cons, List.flatten_cons, toRows]
    rw [List.take_left' ha, List.drop_left' ha,
      ih (fun r hr => h r (List.mem_cons_of_mem a hr))]

theorem flatten_map_length {β γ : Type} (f : β → List γ) (c : Nat)
    (rs : List β) (h : ∀ r ∈ rs, (f r).length = c) :
    ((rs.map f).flatten).length = rs.length * c := by
  induction rs with
  | nil => simp
  | cons a as ih =>
    simp only [List.map_cons, List.flatten_cons, List.length_append,
      List.length_cons, h a (List.mem_cons_self a as),
      ih (fun r hr => h r (List.mem_cons_of_mem a hr)), Nat.succ_mul]
    omega

theorem matVec_length (w : List (List α)) (b x : List α) :
    (matVec w b x).length = min w.length b.length := by
  simp [matVec]

theorem prelu2_shape (a : α) (t : Tensor α) : (prelu2 a t).shape = t.shape := rfl

theorem prelu2_data_length (a : α) (t : Tensor α) :
    (prelu2 a t).data.length = t.data.length := by
  simp [prelu2]

theorem dropoutData_length (training : Bool) (p : α) (mask : Nat → Bool)
    (xs : List α) : (dropoutData training p mask xs).length = xs.length := by
  rw [dropoutData]
  split
  · simp
  · rfl

theorem dropout2_shape (training : Bool) (p : α) (mask : Nat → Bool)
    (t : Tensor α) : (dropout2 training p mask t).shape = t.shape := rfl

theorem dropout2_data_length (training : Bool) (p : α) (mask : Nat → Bool)
    (t : Tensor α) : (dropout2 training p mask t).data.length = t.data.length :=
  dropoutData_length training p mask t.data

theorem Linear.fwd_some (l : Linear α) (n : Nat) (t : Tensor α) (hw : l.wf)
    (h : t.shape = [n, l.inF]) :
    ∃ u, l.fwd t = some u ∧ u.shape = [n, l.outF] ∧ u.wf := by
  obtain ⟨hwl, hwr, hbl⟩ := hw
  refine ⟨⟨[n, l.outF],
    ((toRows n l.inF t.data).map (matVec l.weight l.bias)).flatten⟩, ?_, rfl, ?_⟩
  · rw [Linear.fwd, h]
    simp
  · show _ = _
    rw [flatten_map_length _ l.outF _
        (fun r hr => by rw [matVec_length, hwl, hbl, Nat.min_self]),
      toRows_length]
    simp [Nat.mul_comm]

theorem Linear.fwd_mismatch (l : Linear α) (n d : Nat) (t : Tensor α)
    (h : t.shape = [n, d]) (hne : d ≠ l.inF) : l.fwd t = none := by
  rw [Linear.fwd, h]
  simp [hne]

theorem seqStack_some (l1 l2 : Linear α) (a p : α) (tr : Bool)
    (mask : Nat → Bool) (n : Nat) (t : Tensor α) (h1 : l1.wf) (h2 : l2.wf)
    (hio : l1.outF = l2.inF) (h : t.shape = [n, l1.inF]) :
    ∃ u, (l1.fwd t).bind
        (fun v => l2.fwd (dropout2 tr p mask (prelu2 a v))) = some u ∧
      u.shape = [n, l2.outF] ∧ u.wf := by
  obtain ⟨u1, hu1, hu1s, hu1w⟩ := l1.fwd_some n t h1 h
  have hmid : (dropout2 tr p mask (prelu2 a u1)).shape = [n, l2.inF] := by
    rw [dropout2_shape, prelu2_shape, hu1s, hio]
  have hmidw : (dropout2 tr p mask (prelu2 a u1)).wf := by
    show _ = _
    rw [dropout2_data_length, prelu2_data_length, dropout2_shape, prelu2_shape]
    exact hu1w
  obtain ⟨u2, hu2, hu2s, hu2w⟩ := l2.fwd_some n _ h2 hmid
  exact ⟨u2, by rw [hu1, Option.some_bind, hu2], hu2s, hu2w⟩

theorem Encoder.encode_some (e : Encoder α) (tr : Bool) (mask : Nat → Bool)
    (n : Nat) (t : Tensor α) (he : e.init) (h : t.shape = [n, 28 * 28]) :
    ∃ u, e.fwd tr mask t = some u ∧ u.shape = [n, 3] ∧ u.wf := by
  obtain ⟨h1i, h1o, h1w, h2i, h2o, h2w⟩ := he
  obtain ⟨u, hu, hus, huw⟩ := seqStack_some e.lin1 e.lin2 e.preluA e.p tr mask
    n t h1w h2w (by rw [h1o, h2i]) (by rw [h, h1i])
  exact ⟨u, hu, by rw [hus, h2o], huw⟩

theorem Decoder.decode_some (d : Decoder α) (tr : Bool) (mask : Nat → Bool)
    (n : Nat) (t : Tensor α) (hd : d.init) (h : t.shape = [n, 3]) :
    ∃ u, d.fwd tr mask t = some u ∧ u.shape = [n, 28 * 28] ∧ u.wf := by
  obtain ⟨h1i, h1o, h1w, h2i, h2o, h2w⟩ := hd
  obtain ⟨u, hu, hus, huw⟩ := seqStack_some d.lin1 d.lin2 d.preluA d.p tr mask
    n t h1w h2w (by rw [h1o, h2i]) (by rw [h, h1i])
  exact ⟨u, hu, by rw [hus, h2o], huw⟩

theorem logSoftmaxRow_length (ex lg : α → α) (xs : List α) :
    (logSoftmaxRow ex lg xs).length = xs.length := by
  simp [logSoftmaxRow]

theorem logSoftmax2_some (ex lg : α → α) (n d : Nat) (t : Tensor α)
    (h : t.shape = [n, d]) (hwf : t.wf) :
    ∃ u, logSoftmax2 ex lg t = some u ∧ u.shape = [n, d] ∧ u.wf ∧
      toRows n d u.data = (toRows n d t.data).map (logSoftmaxRow ex lg) := by
  have hlen : t.data.length = n * d := by
    rw [hwf, h]
    simp [Nat.mul_comm]
  have hrows : ∀ r ∈ toRows n d t.data, r.length = d :=
    toRows_row_length n d t.data hlen
  have hmap : ∀ r ∈ toRows n d t.data, (logSoftmaxRow ex lg r).length = d :=
    fun r hr => by rw [logSoftmaxRow_length, hrows r hr]
  refine ⟨⟨[n, d], ((toRows n d t.data).map (logSoftmaxRow ex lg)).flatten⟩,
    ?_, rfl, ?_, ?_⟩
  · rw [logSoftmax2, h]
  · show _ = _
    rw [flatten_map_length _ d _ hmap, toRows_length]
    simp [Nat.mul_comm]
  · show toRows n d _ = _
    have hcnt : ((toRows n d t.data).map (logSoftmaxRow ex lg)).length = n := by
      rw [List.length_map, toRows_length]
    have h2 := toRows_flatten d ((toRows n d t.data).map (logSoftmaxRow ex lg))
      (fun r hr => by
        obtain ⟨s, hs, rfl⟩ := List.mem_map.mp hr
        exact hmap s hs)
    rwa [hcnt] at h2

theorem mseLoss_nonneg (a b : Tensor α) (l : α) (h : mseLoss a b = some l) :
    0 ≤ l := by
  rw [mseLoss] at h
  split at h
  · injection h with h
    rw [← h]
    apply div_nonneg
    · apply List.sum_nonneg
      intro x hx
      obtain ⟨pq, hpq, rfl⟩ := List.mem_map.mp hx
      exact sq_nonneg _
    · exact Nat.cast_nonneg _
  · cases h

theorem mseLoss_some (a b : Tensor α) (h : a.shape = b.shape) :
    ∃ l, mseLoss a b = some l ∧ 0 ≤ l := by
  refine ⟨_, by rw [mseLoss, if_pos h], mseLoss_nonneg a b _ (by rw [mseLoss, if_pos h])⟩

theorem replicateLin_wf (a b : Nat) (x : α) (w : α) :
    (Linear.mk a b (List.replicate b (List.replicate a x))
      (List.replicate b w)).wf :=
  ⟨List.length_replicate b _,
   fun r hr => by rw [List.eq_of_mem_replicate hr]; exact List.length_replicate a x,
   List.length_replicate b w⟩

theorem encQ_init : encQ.init :=
  ⟨rfl, rfl, replicateLin_wf _ _ _ _, rfl, rfl, replicateLin_wf _ _ _ _⟩

theorem decQ_init : decQ.init :=
  ⟨rfl, rfl, replicateLin_wf _ _ _ _, rfl, rfl, replicateLin_wf _ _ _ _⟩

theorem encR_init : encR.init :=
  ⟨rfl, rfl, replicateLin_wf _ _ _ _, rfl, rfl, replicateLin_wf _ _ _ _⟩

theorem decR_init : decR.init :=
  ⟨rfl, rfl, replicateLin_wf _ _ _ _, rfl, rfl, replicateLin_wf _ _ _ _⟩

theorem tQ_wf : tQ.wf := by
  show (List.replicate (28 * 28) (0:ℚ)).length = _
  rw [List.length_replicate]
  rfl

theorem uQ_wf : uQ.wf := by
  show (List.replicate 3 (0:ℚ)).length = _
  rw [List.length_replicate]
  rfl

theorem t10_wf : t10.wf := by
  show (List.replicate (2 * (28 * 28)) (0:ℚ)).length = _
  rw [List.length_replicate]
  rfl

theorem tR_wf : tR.wf := by
  show (List.replicate (4 * (28 * 28)) (0:ℝ)).length = _
  rw [List.length_replicate]
  rfl

/-- The shared forward pipeline: on a batch whose flattened-per-sample view is
`[n, 784]`, the forward pass succeeds and yields `x_hat` and `y_hat` both of
shape `[n, 784]` and well formed, with the rows of `y_hat` being exactly the
log-softmax of the rows of `x_hat`. -/
theorem PodModule.fwd_spec (ex lg : α → α) (m : PodModule α) (tr : Bool)
    (mask1 mask2 : Nat → Bool) (n : Nat) (t xv : Tensor α)
    (he : m.encoder.init) (hd : m.decoder.init)
    (hv : t.view2 = some xv) (hs : xv.shape = [n, 28 * 28]) :
    ∃ xh yh, PodModule.fwd ex lg m tr mask1 mask2 t = some (xh, yh) ∧
      xh.shape = [n, 28 * 28] ∧ xh.wf ∧ yh.shape = [n, 28 * 28] ∧ yh.wf ∧
      toRows n (28 * 28) yh.data
        = (toRows n (28 * 28) xh.data).map (logSoftmaxRow ex lg) := by
  obtain ⟨z, hz, hzs, hzw⟩ := m.encoder.encode_some tr mask1 n xv he hs
  obtain ⟨xh, hxh, hxhs, hxhw⟩ := m.decoder.decode_some tr mask2 n z hd hzs
  obtain ⟨yh, hyh, hyhs, hyhw, hyhrows⟩ :=
    logSoftmax2_some ex lg n (28 * 28) xh hxhs hxhw
  exact ⟨xh, yh, by rw [PodModule.fwd, hv, Option.some_bind, hz,
      Option.some_bind, hxh, Option.some_bind, hyh, Option.map_some'],
    hxhs, hxhw, hyhs, hyhw, hyhrows⟩

/-- Summing `g v / c` over a list equals the sum of `g` divided by `c`. -/
theorem sum_map_div (xs : List α) (g : α → α) (c : α) :
    (xs.map (fun v => g v / c)).sum = (xs.map g).sum / c := by
  induction xs with
  | nil => simp
  | cons a as ih => simp [ih, add_div]

/-- On a nonempty row, the exponentials of the entries of
`log_softmax` sum to exactly 1. -/
theorem logSoftmaxRow_exp_sum (xs : List ℝ) (hne : xs ≠ []) :
    ((logSoftmaxRow Real.exp Real.log xs).map Real.exp).sum = 1 := by
  have hpos : 0 < (xs.map Real.exp).sum := by
    apply List.sum_pos
    · intro x hx
      obtain ⟨v, hv, rfl⟩ := List.mem_map.mp hx
      exact Real.exp_pos v
    · intro h
      exact hne (List.map_eq_nil_iff.mp h)
  have hrw : (logSoftmaxRow Real.exp Real.log xs).map Real.exp
      = xs.map (fun v => Real.exp v / (xs.map Real.exp).sum) := by
    rw [logSoftmaxRow, List.map_map]
    apply List.map_congr_left
    intro v hv
    show Real.exp (v - Real.log ((xs.map Real.exp).sum)) = _
    rw [Real.exp_sub, Real.exp_log hpos]
  rw [hrw, sum_map_div, div_self (ne_of_gt hpos)]

theorem prod_pair (a b : Nat) : ([a, b] : List Nat).prod = a * b := by
  simp

/-- Concrete evaluation of `_common_flow` at the training stage on the tiny
module and batch: the loss is computed, logged under `"training_loss"` and
returned by `_common_flow` itself. -/
theorem tinyFlow_eval :
    commonFlow id id (fun _ _ => (0:ℚ)) (fun _ _ => 0) tinyPod false
      (fun _ => false) (fun _ => false) tinyBatch "training"
      = some ([("training_loss", 0)], some 0) := by
  simp [commonFlow, commonFlowXYhat, Encoder.fwd, Decoder.fwd, Linear.fwd,
    tinyPod, tinyEnc, tinyDec, tinyBatch, Tensor.view2, toRows, matVec, dot,
    prelu2, preluFn, dropout2, dropoutData, logSoftmax2, logSoftmaxRow,
    mseLoss, valTestLogs, callAccuracy, accuracyKeywords]

/-! ## Claim theorems -/

/-- C1: `_common_flow` at the training stage computes a non-negative loss and
returns it, but `training_step` itself discards that value and returns Python
`None` instead of the loss — the claim that `training_step` returns the loss
as the optimization target fails on the code. -/
theorem trainingStep_discards_loss (ex lg : α → α)
    (accFn : Tensor α → List Nat → α) (ssimFn : Tensor α → Tensor α → α)
    (m : PodModule α) (tr : Bool) (mask1 mask2 : Nat → Bool)
    (batch : Tensor α × List Nat) (r : List (String × α) × Option α)
    (h : commonFlow ex lg accFn ssimFn m tr mask1 mask2 batch "training"
      = some r) :
    ∃ l, r.2 = some l ∧ 0 ≤ l ∧
      trainingStep ex lg accFn ssimFn m tr mask1 mask2 batch
        = some (r.1, none) := by
  have h0 := h
  rw [commonFlow] at h
  rcases Option.bind_eq_some.mp h with ⟨xy, hxy, h2⟩
  rcases Option.bind_eq_some.mp h2 with ⟨xv, hxv, h3⟩
  rcases Option.bind_eq_some.mp h3 with ⟨loss, hl, h4⟩
  rw [if_neg (by decide), if_pos rfl] at h4
  injection h4 with h4
  refine ⟨loss, ?_, mseLoss_nonneg _ _ _ hl, ?_⟩
  · rw [← h4]
  · rw [trainingStep, h0, Option.map_some']

/-- Witness for C1 at the tiny module and batch. -/
theorem trainingStep_discards_loss_witness :
    commonFlow id id (fun _ _ => (0:ℚ)) (fun _ _ => 0) tinyPod false
        (fun _ => false) (fun _ => false) tinyBatch "training"
      = some ([("training_loss", 0)], some 0) ∧
    (∃ l, (some (0:ℚ)) = some l ∧ 0 ≤ l ∧
      trainingStep id id (fun _ _ => (0:ℚ)) (fun _ _ => 0) tinyPod false
        (fun _ => false) (fun _ => false) tinyBatch
        = some ([("training_loss", 0)], none)) :=
  ⟨tinyFlow_eval,
    trainingStep_discards_loss id id (fun _ _ => (0:ℚ)) (fun _ _ => 0) tinyPod
      false (fun _ => false) (fun _ => false) tinyBatch
      ([("training_loss", 0)], some 0) tinyFlow_eval⟩

/-- C2: every validation-step and test-step invocation raises before any
metric is recorded — the accuracy call passes the task kind under the invalid
keyword `accuracy_task`, a `TypeError` of the metrics library — so no
invocation records three metrics; the step evaluates to an error (`none`). -/
theorem valTest_steps_record_no_metrics (ex lg : α → α)
    (accFn : Tensor α → List Nat → α) (ssimFn : Tensor α → Tensor α → α)
    (m : PodModule α) (tr : Bool) (mask1 mask2 : Nat → Bool)
    (batch : Tensor α × List Nat) :
    validationStep ex lg accFn ssimFn m tr mask1 mask2 batch = none ∧
      testStep ex lg accFn ssimFn m tr mask1 mask2 batch = none := by
  have hacc : ∀ (p : Tensor α) (y : List Nat),
      callAccuracy accFn "accuracy_task" p y = none := fun p y => by
    rw [callAccuracy, if_neg (by decide)]
  constructor
  · rw [validationStep, commonFlow]
    cases hxy : commonFlowXYhat ex lg m tr mask1 mask2 batch.1 with
    | none => rfl
    | some xy =>
      rw [Option.some_bind]
      cases hxv : batch.1.view2 with
      | none => rfl
      | some xv =>
        rw [Option.some_bind]
        cases hl : mseLoss xy.1 xv with
        | none => rfl
        | some loss =>
          rw [Option.some_bind, if_pos (by decide), hacc]
          rfl
  · rw [testStep, commonFlow]
    cases hxy : commonFlowXYhat ex lg m tr mask1 mask2 batch.1 with
    | none => rfl
    | some xy =>
      rw [Option.some_bind]
      cases hxv : batch.1.view2 with
      | none => rfl
      | some xv =>
        rw [Option.some_bind]
        cases hl : mseLoss xy.1 xv with
        | none => rfl
        | some loss =>
          rw [Option.some_bind, if_pos (by decide), hacc]
          rfl

/-- C3: the driver's early-stopping collaborator monitors the metric named
`"loss"`, minimized, but no invocation of `_common_flow` ever records a metric
under that name (the recorded names are stage-prefixed), so the monitored
metric is not a metric the Model wrapper records. -/
theorem earlyStopping_monitor_never_recorded (ex lg : α → α)
    (accFn : Tensor α → List Nat → α) (ssimFn : Tensor α → Tensor α → α)
    (m : PodModule α) (tr : Bool) (mask1 mask2 : Nat → Bool)
    (batch : Tensor α × List Nat) (stage : String)
    (r : List (String × α) × Option α)
    (h : commonFlow ex lg accFn ssimFn m tr mask1 mask2 batch stage = some r) :
    earlyStoppingMonitor = "loss" ∧ earlyStoppingMode = "min" ∧
      earlyStoppingMonitor ∉ r.1.map Prod.fst := by
  refine ⟨rfl, rfl, ?_⟩
  rw [commonFlow] at h
  rcases Option.bind_eq_some.mp h with ⟨xy, hxy, h2⟩
  rcases Option.bind_eq_some.mp h2 with ⟨xv, hxv, h3⟩
  rcases Option.bind_eq_some.mp h3 with ⟨loss, hl, h4⟩
  by_cases hs : stage ∈ ["val", "test"]
  · rw [if_pos hs, callAccuracy, if_neg (by decide)] at h4
    simp at h4
  · rw [if_neg hs] at h4
    by_cases ht2 : stage = "training"
    · rw [if_pos ht2] at h4
      injection h4 with h4
      rw [← h4]
      subst ht2
      simp only [List.map_cons, List.map_nil]
      decide
    · rw [if_neg ht2] at h4
      injection h4 with h4
      rw [← h4]
      simp

/-- Witness for C3 at the tiny module and a training invocation. -/
theorem earlyStopping_monitor_never_recorded_witness :
    commonFlow id id (fun _ _ => (0:ℚ)) (fun _ _ => 0) tinyPod false
        (fun _ => false) (fun _ => false) tinyBatch "training"
      = some ([("training_loss", 0)], some 0) ∧
    (earlyStoppingMonitor = "loss" ∧ earlyStoppingMode = "min" ∧
      earlyStoppingMonitor ∉
        ([(("training_loss" : String), (0:ℚ))]).map Prod.fst) :=
  ⟨tinyFlow_eval,
    earlyStopping_monitor_never_recorded id id (fun _ _ => (0:ℚ)) (fun _ _ => 0)
      tinyPod false (fun _ => false) (fun _ => false) tinyBatch "training"
      ([("training_loss", 0)], some 0) tinyFlow_eval⟩

/-- C4: for every batch size N, the Encoder maps an input batch of shape
(N, 784) to output of shape (N, 3), the Decoder maps a latent batch of shape
(N, 3) to output of shape (N, 784), and composing Encoder then Decoder
preserves the batch dimension N exactly. -/
theorem encoder_decoder_shapes (e : Encoder α) (d : Decoder α) (tr : Bool)
    (mask1 mask2 : Nat → Bool) (N : Nat) (t u : Tensor α)
    (he : e.init) (hd : d.init)
    (ht : t.shape = [N, 28 * 28]) (hu : u.shape = [N, 3]) :
    ((e.fwd tr mask1 t).map Tensor.shape = some [N, 3]) ∧
    ((d.fwd tr mask2 u).map Tensor.shape = some [N, 28 * 28]) ∧
    (((e.fwd tr mask1 t).bind (d.fwd tr mask2)).map Tensor.shape
      = some [N, 28 * 28]) := by
  obtain ⟨v, hv, hvs, hvw⟩ := e.encode_some tr mask1 N t he ht
  obtain ⟨w, hw, hws, hww⟩ := d.decode_some tr mask2 N u hd hu
  obtain ⟨w2, hw2, hw2s, hw2w⟩ := d.decode_some tr mask2 N v hd hvs
  exact ⟨by rw [hv, Option.map_some', hvs],
    by rw [hw, Option.map_some', hws],
    by rw [hv, Option.some_bind, hw2, Option.map_some', hw2s]⟩

/-- Witness for C4 at a concrete encoder, decoder and batch (N = 1). -/
theorem encoder_decoder_shapes_witness :
    encQ.init ∧ decQ.init ∧ tQ.shape = [1, 28 * 28] ∧ uQ.shape = [1, 3] ∧
    (((encQ.fwd false (fun _ => false) tQ).map Tensor.shape = some [1, 3]) ∧
     ((decQ.fwd false (fun _ => false) uQ).map Tensor.shape = some [1, 28 * 28]) ∧
     (((encQ.fwd false (fun _ => false) tQ).bind
        (decQ.fwd false (fun _ => false))).map Tensor.shape
        = some [1, 28 * 28])) :=
  ⟨encQ_init, decQ_init, rfl, rfl,
    encoder_decoder_shapes encQ decQ false (fun _ => false) (fun _ => false)
      1 tQ uQ encQ_init decQ_init rfl rfl⟩

/-- C5: the driver constructs the model by the name `LitModel` imported from
the core module, but the core module defines no class of that name (it defines
`PodModule`), so the driver's model-construction name does not resolve. -/
theorem driver_model_name_not_defined :
    driverModelClassName ∉ coreModuleClassNames := by
  decide

/-- C6: with dropout probability 0 and in evaluation mode, two forward passes
on the same input with different dropout randomness produce identical
output. -/
theorem forward_eval_deterministic (ex lg : α → α) (m : PodModule α)
    (mask1 mask2 mask3 mask4 : Nat → Bool) (x : Tensor α)
    (hep : m.encoder.p = 0) (hdp : m.decoder.p = 0) :
    PodModule.fwd ex lg m false mask1 mask2 x
      = PodModule.fwd ex lg m false mask3 mask4 x := by
  have hdrop : ∀ (p : α) (mk : Nat → Bool) (u : Tensor α),
      dropout2 false p mk u = u := by
    intro p mk u
    rw [dropout2, dropoutData]
    simp
  simp only [PodModule.fwd, Encoder.fwd, Decoder.fwd, hdrop]

/-- Witness for C6 at a concrete module with dropout probability 0 and two
different dropout randomness streams. -/
theorem forward_eval_deterministic_witness :
    podR.encoder.p = 0 ∧ podR.decoder.p = 0 ∧
    PodModule.fwd Real.exp Real.log podR false (fun _ => false) (fun _ => false) tR
      = PodModule.fwd Real.exp Real.log podR false (fun _ => true) (fun _ => true) tR :=
  ⟨rfl, rfl, forward_eval_deterministic Real.exp Real.log podR
    (fun _ => false) (fun _ => false) (fun _ => true) (fun _ => true) tR rfl rfl⟩

/-- C7: for a module with the construction-time layer sizes and a batch of
shape (4, 1, 28, 28), the forward pass yields x_hat of shape (4, 784) and
y_hat of shape (4, 784) such that the exponentials of every row of y_hat sum
to exactly 1. -/
theorem forward_default_shapes_prob_rows (m : PodModule ℝ) (tr : Bool)
    (mask1 mask2 : Nat → Bool) (t : Tensor ℝ)
    (he : m.encoder.init) (hd : m.decoder.init)
    (ht : t.shape = [4, 1, 28, 28]) :
    ∃ xh yh, PodModule.fwd Real.exp Real.log m tr mask1 mask2 t = some (xh, yh) ∧
      xh.shape = [4, 28 * 28] ∧ yh.shape = [4, 28 * 28] ∧
      ∀ row ∈ toRows 4 (28 * 28) yh.data, (row.map Real.exp).sum = 1 := by
  have hview : t.view2 = some ⟨[4, ([1, 28, 28] : List Nat).prod], t.data⟩ :=
    view2_some 4 [1, 28, 28] t ht (by norm_num)
  obtain ⟨xh, yh, hfwd, hxs, hxw, hys, hyw, hrows⟩ :=
    PodModule.fwd_spec Real.exp Real.log m tr mask1 mask2 4 t
      ⟨[4, ([1, 28, 28] : List Nat).prod], t.data⟩ he hd hview (by norm_num)
  refine ⟨xh, yh, hfwd, hxs, hys, ?_⟩
  intro row hrow
  rw [hrows] at hrow
  obtain ⟨r, hr, rfl⟩ := List.mem_map.mp hrow
  apply logSoftmaxRow_exp_sum
  have hlen : r.length = 28 * 28 :=
    toRows_row_length 4 (28 * 28) xh.data
      (by rw [hxw, hxs, prod_pair]) r hr
  intro hnil
  rw [hnil] at hlen
  exact absurd hlen (by norm_num)

/-- Witness for C7 at a concrete real module and the all-zero batch of shape
(4, 1, 28, 28). -/
theorem forward_default_shapes_prob_rows_witness :
    podR.encoder.init ∧ podR.decoder.init ∧ tR.shape = [4, 1, 28, 28] ∧
    (∃ xh yh, PodModule.fwd Real.exp Real.log podR false
        (fun _ => false) (fun _ => false) tR = some (xh, yh) ∧
      xh.shape = [4, 28 * 28] ∧ yh.shape = [4, 28 * 28] ∧
      ∀ row ∈ toRows 4 (28 * 28) yh.data, (row.map Real.exp).sum = 1) :=
  ⟨encR_init, decR_init, rfl,
    forward_default_shapes_prob_rows podR false (fun _ => false) (fun _ => false)
      tR encR_init decR_init rfl⟩

/-- C8: the `(x_hat, y_hat)` pair computed inside `_common_flow` coincides
with the pair computed by `PodModule.forward` on the same input: the two
copies of the shared forward path are equivalent. -/
theorem commonFlow_forward_equiv (ex lg : α → α) (m : PodModule α) (tr : Bool)
    (mask1 mask2 : Nat → Bool) (x : Tensor α) :
    commonFlowXYhat ex lg m tr mask1 mask2 x
      = PodModule.fwd ex lg m tr mask1 mask2 x := rfl

/-- C9: at the metric-recording step of a validation or test invocation, the
structural-similarity metric key is `stage ++ "_ssim "`, carrying a trailing
space, while the accuracy and loss keys carry none. -/
theorem ssim_key_trailing_space (stage : String) (s a l : α)
    (h : stage = "val" ∨ stage = "test") :
    (valTestLogs stage s a l).map Prod.fst
        = [stage ++ "_ssim ", stage ++ "_acc", stage ++ "_loss"] ∧
      (stage ++ "_ssim ").data.getLast? = some ' ' ∧
      (stage ++ "_acc").data.getLast? ≠ some ' ' ∧
      (stage ++ "_loss").data.getLast? ≠ some ' ' := by
  rcases h with rfl | rfl
  · exact ⟨rfl, by decide, by decide, by decide⟩
  · exact ⟨rfl, by decide, by decide, by decide⟩

/-- Witness for C9 at the validation stage. -/
theorem ssim_key_trailing_space_witness :
    (("val" : String) = "val" ∨ ("val" : String) = "test") ∧
    ((valTestLogs "val" (0:ℚ) 0 0).map Prod.fst
        = ["val" ++ "_ssim ", "val" ++ "_acc", "val" ++ "_loss"] ∧
      (("val" : String) ++ "_ssim ").data.getLast? = some ' ' ∧
      (("val" : String) ++ "_acc").data.getLast? ≠ some ' ' ∧
      (("val" : String) ++ "_loss").data.getLast? ≠ some ' ') :=
  ⟨Or.inl rfl, ssim_key_trailing_space "val" 0 0 0 (Or.inl rfl)⟩

/-- C10 counterexample: the empty batch of shape (0, 28, 28) has per-sample
flattened size 28 * 28 = 784, yet the forward pass fails — `view(0, -1)` is a
RuntimeError of the numeric library, because the `-1` dimension of a 0-element
tensor is ambiguous — so "succeeds exactly when the product is 784" is false
of the code at batch size N = 0. -/
theorem forward_succeeds_iff_784_counterexample :
    tEmpty.shape = 0 :: [28, 28] ∧ ([28, 28] : List Nat).prod = 28 * 28 ∧
    (PodModule.fwd id id podQ false (fun _ => false) (fun _ => false)
      tEmpty).isSome = false := by
  refine ⟨rfl, by norm_num, ?_⟩
  rw [PodModule.fwd, view2_zero [28, 28] tEmpty rfl]
  rfl

/-- C10 (amended, per the counterexample above: the flatten itself raises on
an empty batch): on any nonempty batch — batch size N > 0 — of shape
(N, d1, ..., dk), the forward pass (which flattens each sample) succeeds
exactly when d1 * ... * dk = 784, and under that precondition the flattening
view succeeds and the shape-mismatch error branch of the Encoder's first
linear layer is not taken. -/
theorem forward_succeeds_iff_784 (ex lg : α → α) (m : PodModule α) (tr : Bool)
    (mask1 mask2 : Nat → Bool) (N : Nat) (ds : List Nat) (t : Tensor α)
    (he : m.encoder.init) (hd : m.decoder.init) (ht : t.shape = N :: ds)
    (hN : 0 < N) :
    ((PodModule.fwd ex lg m tr mask1 mask2 t).isSome = true
        ↔ ds.prod = 28 * 28) ∧
      (ds.prod = 28 * 28 → ∃ xv, t.view2 = some xv ∧
        (m.encoder.lin1.fwd xv).isSome = true) := by
  have hview : t.view2 = some ⟨[N, ds.prod], t.data⟩ :=
    view2_some N ds t ht (by omega)
  constructor
  · constructor
    · intro hsome
      by_contra hne
      have h1 : m.encoder.lin1.fwd ⟨[N, ds.prod], t.data⟩ = none :=
        Linear.fwd_mismatch m.encoder.lin1 N ds.prod ⟨[N, ds.prod], t.data⟩
          rfl (by rw [he.1]; exact hne)
      have hnone : PodModule.fwd ex lg m tr mask1 mask2 t = none := by
        rw [PodModule.fwd, hview, Option.some_bind, Encoder.fwd, h1]
        rfl
      rw [hnone] at hsome
      cases hsome
    · intro hprod
      obtain ⟨xh, yh, hfwd, _⟩ := PodModule.fwd_spec ex lg m tr mask1 mask2
        N t ⟨[N, ds.prod], t.data⟩ he hd hview
        (by rw [show (⟨[N, ds.prod], t.data⟩ : Tensor α).shape = [N, ds.prod] from rfl, hprod])
      rw [hfwd]
      rfl
  · intro hprod
    obtain ⟨u, hu, _⟩ := Linear.fwd_some m.encoder.lin1 N
      ⟨[N, ds.prod], t.data⟩ he.2.2.1
      (by rw [show (⟨[N, ds.prod], t.data⟩ : Tensor α).shape = [N, ds.prod] from rfl, hprod, he.1])
    exact ⟨⟨[N, ds.prod], t.data⟩, hview, by rw [hu]; rfl⟩

/-- Witness for C10 at a concrete nonempty batch of shape (2, 28, 28). -/
theorem forward_succeeds_iff_784_witness :
    podQ.encoder.init ∧ podQ.decoder.init ∧ t10.shape = 2 :: [28, 28] ∧
    0 < 2 ∧
    (((PodModule.fwd id id podQ false (fun _ => false) (fun _ => false)
        t10).isSome = true ↔ ([28, 28] : List Nat).prod = 28 * 28) ∧
      (([28, 28] : List Nat).prod = 28 * 28 →
        ∃ xv, t10.view2 = some xv ∧
          (podQ.encoder.lin1.fwd xv).isSome = true)) :=
  ⟨encQ_init, decQ_init, rfl, by norm_num,
    forward_succeeds_iff_784 id id podQ false (fun _ => false) (fun _ => false)
      2 [28, 28] t10 encQ_init decQ_init rfl (by norm_num)⟩

end LightningPod
